import Mathlib

/-!
Shallow embedding of the CrossChainPayment order-lifecycle core:
the status reconciler (PaymentService.updateOrderStatus), the poll
worker (PaymentService.pollShiftStatus together with the SideShift
client response validation), the webhook ingestor
(POST /api/webhooks/sideshift) and the expiry/stuck monitor sweep
(monitorPayments).

Timestamps are integers (milliseconds, as JavaScript Date.getTime).
The database is a list of orders; a save is a replacement of the
entries with the same orderId.  External effects are an environment:
per-order save outcomes (the storage layer can reject a write) and
the raw provider response for a given shift id.  Fallible operations
return Except String.
-/

namespace CrossChainPayment

/-- Closed set of payment statuses, from src/models (PaymentStatus). -/
inductive PaymentStatus where
  | pending
  | detecting
  | processing
  | settling
  | completed
  | expired
  | failed
  | refunded
  | underpaid
  | overpaid
deriving DecidableEq, Repr

/-- One cart line of an order. -/
structure OrderItem where
  productId : String
  name : String
  quantity : Nat
  priceUSD : Int
deriving DecidableEq, Repr

/-- One statusHistory entry: status, timestamp, optional note. -/
structure HistoryEntry where
  status : PaymentStatus
  timestamp : Int
  note : Option String
deriving DecidableEq, Repr

/-- The payment order record (IPaymentOrder), with the mongoose
timestamps createdAt and updatedAt made explicit. -/
structure Order where
  orderId : String
  orderNumber : String
  items : List OrderItem
  totalUSD : Int
  customerEmail : String
  customerWallet : Option String
  quoteId : Option String
  shiftId : Option String
  depositCoin : String
  depositNetwork : String
  depositAddress : Option String
  depositAmount : Option String
  settleCoin : String
  settleNetwork : String
  settleAddress : String
  settleAmount : Option String
  depositTxHash : Option String
  settleTxHash : Option String
  status : PaymentStatus
  statusHistory : List HistoryEntry
  quoteExpiresAt : Option Int
  expiryReminderSent : Bool
  exchangeRate : Option Int
  quotedAt : Option Int
  ipAddress : Option String
  userAgent : Option String
  affiliateId : Option String
  createdAt : Int
  updatedAt : Int
  completedAt : Option Int
deriving DecidableEq, Repr

/-- Optional metadata accepted by updateOrderStatus. -/
structure UpdateMetadata where
  depositTxHash : Option String
  settleTxHash : Option String
  note : Option String
deriving DecidableEq, Repr

/-- JavaScript truthiness of an optional string: undefined and the
empty string are falsy. -/
def truthy : Option String → Bool
  | none => false
  | some s => s ≠ ""

/-- Terminal-state guard of updateOrderStatus, the literal list
tested by the source: completed, refunded, expired. -/
def terminalGuard (s : PaymentStatus) : Bool :=
  s == .completed || s == .refunded || s == .expired

/-- The mutation performed by updateOrderStatus on a non-terminal
order: set status, append a history entry, copy truthy transaction
hashes, stamp completedAt on a completed transition; saving also
refreshes the mongoose updatedAt timestamp. -/
def applyTransition (order : Order) (newStatus : PaymentStatus)
    (metadata : Option UpdateMetadata) (now : Int) : Order :=
  let dtx := metadata.bind UpdateMetadata.depositTxHash
  let stx := metadata.bind UpdateMetadata.settleTxHash
  { order with
    status := newStatus
    statusHistory := order.statusHistory ++
      [⟨newStatus, now, metadata.bind UpdateMetadata.note⟩]
    depositTxHash := if truthy dtx then dtx else order.depositTxHash
    settleTxHash := if truthy stx then stx else order.settleTxHash
    completedAt := if newStatus == .completed then some now else order.completedAt
    updatedAt := now }

/-- Per-order semantics of updateOrderStatus once the order is in
hand: terminal orders are returned unchanged with no hook, otherwise
the transition is applied; the boolean reports whether the completion
hook (handleOrderCompletion) fires. -/
def updateOrder (order : Order) (newStatus : PaymentStatus)
    (metadata : Option UpdateMetadata) (now : Int) : Order × Bool :=
  if terminalGuard order.status then (order, false)
  else (applyTransition order newStatus metadata now, newStatus == .completed)

/-- The order store, a list of persisted orders. -/
abbrev Store := List Order

/-- PaymentOrder.findOne on orderId. -/
def findByOrderId (store : Store) (orderId : String) : Option Order :=
  store.find? (fun o => o.orderId == orderId)

/-- PaymentOrder.findOne on shiftId. -/
def findByShiftId (store : Store) (shiftId : String) : Option Order :=
  store.find? (fun o => o.shiftId == some shiftId)

/-- Persisting a mutated order document: replace the entries bearing
its orderId. -/
def storeSave (store : Store) (o : Order) : Store :=
  store.map (fun x => if x.orderId == o.orderId then o else x)

/-- Raw provider status payload relevant to reconciliation. -/
structure RawShiftStatus where
  status : String
  depositHash : Option String
  settleHash : Option String
deriving DecidableEq, Repr

/-- External effects: whether the save of a given order succeeds, and
the raw provider response for a given shift id (an error models a
network failure or timeout of the adapter call). -/
structure Env where
  saveOk : String → Bool
  shiftApi : String → Except String RawShiftStatus

/-- Result of a successful updateOrderStatus call: the store after
the write, the returned order and whether the completion hook fired. -/
structure UpdateOutcome where
  store : Store
  order : Order
  hookInvoked : Bool
deriving DecidableEq, Repr

/-- PaymentService.updateOrderStatus: look the order up, return it
unchanged if the status is in the terminal guard, otherwise apply the
transition and save; a failed save is a storage error, an unknown id
is a not-found error. -/
def updateOrderStatus (env : Env) (store : Store) (orderId : String)
    (newStatus : PaymentStatus) (metadata : Option UpdateMetadata)
    (now : Int) : Except String UpdateOutcome :=
  match findByOrderId store orderId with
  | none => .error ("Order " ++ orderId ++ " not found")
  | some order =>
    if terminalGuard order.status then .ok ⟨store, order, false⟩
    else
      let o := applyTransition order newStatus metadata now
      if env.saveOk orderId then
        .ok ⟨storeSave store o, o, newStatus == .completed⟩
      else .error "StorageError: save failed"

/-- The fixed SideShift-to-internal status mapping table, shared by
the webhook handler and pollShiftStatus. -/
def statusMap (s : String) : Option PaymentStatus :=
  if s = "waiting" then some .pending
  else if s = "pending" then some .detecting
  else if s = "processing" then some .processing
  else if s = "settling" then some .settling
  else if s = "settled" then some .completed
  else if s = "refund" then some .failed
  else if s = "refunded" then some .refunded
  else if s = "expired" then some .expired
  else none

/-- The status enum accepted by the SideShift client response schema
(ShiftStatusSchema in src/lib/sideshift.ts). -/
def shiftStatusEnum : List String :=
  ["waiting", "pending", "processing", "settling",
   "settled", "refund", "refunded", "expired"]

/-- SideShiftClient.getShiftStatus: fetch the raw response and
validate it against the response schema; a status outside the enum
fails validation and the call throws. -/
def getShiftStatus (env : Env) (shiftId : String) : Except String RawShiftStatus :=
  match env.shiftApi shiftId with
  | .error e => .error e
  | .ok raw =>
    if shiftStatusEnum.contains raw.status then .ok raw
    else .error ("Invalid shift status: " ++ raw.status)

/-- PaymentService.pollShiftStatus: require an order with a truthy
shiftId, fetch the provider status, map it through the table with the
pending fallback, and delegate to updateOrderStatus. -/
def pollShiftStatus (env : Env) (store : Store) (orderId : String)
    (now : Int) : Except String UpdateOutcome :=
  match findByOrderId store orderId with
  | none => .error ("Order " ++ orderId ++ " not found or has no shiftId")
  | some order =>
    if truthy order.shiftId then
      match getShiftStatus env (order.shiftId.getD "") with
      | .error e => .error e
      | .ok st =>
        let newStatus := (statusMap st.status).getD .pending
        updateOrderStatus env store orderId newStatus
          (some ⟨st.depositHash, st.settleHash,
            some ("SideShift status: " ++ st.status)⟩) now
    else .error ("Order " ++ orderId ++ " not found or has no shiftId")

/-- Inbound webhook payload fields used by the handler. -/
structure WebhookPayload where
  id : Option String
  status : Option String
  depositHash : Option String
  settleHash : Option String
deriving DecidableEq, Repr

/-- Webhook audit record (WebhookEvent model), restricted to the
fields the handler reads or writes. -/
structure WebhookEventRec where
  eventId : String
  eventType : String
  shiftId : Option String
  orderId : Option String
  processed : Bool
  processedAt : Option Int
  processingError : Option String
  receivedAt : Int
deriving DecidableEq, Repr

/-- HTTP response: status code, plus the success and error fields of
the JSON body when present. -/
structure HttpResponse where
  statusCode : Nat
  success : Option Bool
  error : Option String
deriving DecidableEq, Repr

/-- Result of one webhook delivery: the response and the new store
and audit-log states. -/
structure WebhookResult where
  response : HttpResponse
  store : Store
  audit : List WebhookEventRec
deriving DecidableEq, Repr

/-- WebhookEvent.findOneAndUpdate on eventId. -/
def auditUpdate (audit : List WebhookEventRec) (eventId : String)
    (f : WebhookEventRec → WebhookEventRec) : List WebhookEventRec :=
  audit.map (fun r => if r.eventId == eventId then f r else r)

/-- Metadata the webhook handler passes to updateOrderStatus. -/
def webhookMetadata (payload : WebhookPayload) : Option UpdateMetadata :=
  some ⟨payload.depositHash, payload.settleHash,
    some ("Webhook: " ++ payload.status.getD "undefined")⟩

/-- POST /api/webhooks/sideshift: reject a falsy shift id with 400
before any audit write; otherwise persist the audit record, look the
order up by shift id (404 when absent), drop unmapped statuses with a
200 acknowledgement, and otherwise reconcile; an error thrown by the
reconciliation is caught and answered with HTTP 200. -/
def webhookPost (env : Env) (store : Store) (audit : List WebhookEventRec)
    (payload : WebhookPayload) (eventId : String) (now : Int) : WebhookResult :=
  if !truthy payload.id then
    ⟨⟨400, none, some "Invalid payload"⟩, store, audit⟩
  else
    let sid := payload.id.getD ""
    let rec0 : WebhookEventRec :=
      ⟨eventId, "shift." ++ payload.status.getD "undefined",
        payload.id, none, false, none, none, now⟩
    let audit1 := audit ++ [rec0]
    match findByShiftId store sid with
    | none =>
      let audit2 := auditUpdate audit1 eventId (fun r =>
        { r with processed := true, processedAt := some now,
                 processingError := some "Order not found" })
      ⟨⟨404, some false, some "Order not found"⟩, store, audit2⟩
    | some order =>
      match payload.status.bind statusMap with
      | none => ⟨⟨200, some true, none⟩, store, audit1⟩
      | some newStatus =>
        match updateOrderStatus env store order.orderId newStatus
            (webhookMetadata payload) now with
        | .error _ =>
          ⟨⟨200, some false, some "Processing error"⟩, store, audit1⟩
        | .ok out =>
          let audit2 := auditUpdate audit1 eventId (fun r =>
            { r with processed := true, processedAt := some now,
                     orderId := some order.orderId })
          ⟨⟨200, some true, none⟩, out.store, audit2⟩

/-- Summary counts returned by one monitor sweep. -/
structure SweepSummary where
  expiredPending : Nat
  expiringSoon : Nat
  abandonedOrders : Nat
  stuckPayments : Nat
deriving DecidableEq, Repr

/-- Sweep category 1 selection: pending, quote expiry strictly in the
past, no deposit hash observed. -/
def isExpiredPending (now : Int) (o : Order) : Bool :=
  o.status == .pending &&
  (match o.quoteExpiresAt with | some t => t < now | none => false) &&
  o.depositTxHash == none

/-- Sweep category 2 selection: pending, expiring within two minutes,
reminder not yet sent, no deposit hash observed. -/
def isExpiringSoon (now : Int) (o : Order) : Bool :=
  o.status == .pending &&
  (match o.quoteExpiresAt with
   | some t => t < now + 2 * 60 * 1000 && now < t
   | none => false) &&
  !o.expiryReminderSent &&
  o.depositTxHash == none

/-- Sweep category 3 selection: pending, created more than a day ago,
no deposit hash observed. -/
def isAbandoned (now : Int) (o : Order) : Bool :=
  o.status == .pending &&
  o.createdAt < now - 24 * 60 * 60 * 1000 &&
  o.depositTxHash == none

/-- Sweep category 4 selection: in-flight status not updated for more
than an hour. -/
def isStuck (now : Int) (o : Order) : Bool :=
  (o.status == .detecting || o.status == .processing || o.status == .settling) &&
  o.updatedAt < now - 60 * 60 * 1000

/-- Sweep category 1 body: expire each candidate through the
reconciler; the loop has no per-item catch, so the first error aborts
the remaining candidates. -/
def processExpired (env : Env) (store : Store) (now : Int) :
    List Order → Except String Store
  | [] => .ok store
  | o :: rest =>
    match updateOrderStatus env store o.orderId .expired
        (some ⟨none, none, some "Quote expired without deposit"⟩) now with
    | .error e => .error e
    | .ok out => processExpired env out.store now rest

/-- Sweep category 2 body: set the one-shot reminder flag and save;
again no per-item catch. -/
def processReminders (env : Env) (store : Store) (now : Int) :
    List Order → Except String Store
  | [] => .ok store
  | o :: rest =>
    let o2 := { o with expiryReminderSent := true, updatedAt := now }
    if env.saveOk o.orderId then
      processReminders env (storeSave store o2) now rest
    else .error "StorageError: save failed"

/-- Sweep category 3 body: expire each abandoned candidate through
the reconciler; no per-item catch. -/
def processAbandoned (env : Env) (store : Store) (now : Int) :
    List Order → Except String Store
  | [] => .ok store
  | o :: rest =>
    match updateOrderStatus env store o.orderId .expired
        (some ⟨none, none, some "Abandoned - 24 hours without deposit"⟩) now with
    | .error e => .error e
    | .ok out => processAbandoned env out.store now rest

/-- Sweep category 4 body: poll each stuck candidate, skipping those
without a truthy shift id; this loop catches per-item errors. -/
def processStuck (env : Env) (store : Store) (now : Int) :
    List Order → Store
  | [] => store
  | o :: rest =>
    if !truthy o.shiftId then processStuck env store now rest
    else
      match pollShiftStatus env store o.orderId now with
      | .error _ => processStuck env store now rest
      | .ok out => processStuck env out.store now rest

/-- monitorPayments: run the four candidate selections against the
evolving store, process each, and return the per-category candidate
counts together with the final store. -/
def monitorPayments (env : Env) (store : Store) (now : Int) :
    Except String (SweepSummary × Store) :=
  let expiredPending := store.filter (isExpiredPending now)
  match processExpired env store now expiredPending with
  | .error e => .error e
  | .ok s1 =>
    let expiringSoon := s1.filter (isExpiringSoon now)
    match processReminders env s1 now expiringSoon with
    | .error e => .error e
    | .ok s2 =>
      let abandoned := s2.filter (isAbandoned now)
      match processAbandoned env s2 now abandoned with
      | .error e => .error e
      | .ok s3 =>
        let stuck := s3.filter (isStuck now)
        let s4 := processStuck env s3 now stuck
        .ok (⟨expiredPending.length, expiringSoon.length,
              abandoned.length, stuck.length⟩, s4)

/-- Success-class (2xx) HTTP status code. -/
def successClass (n : Nat) : Bool := 200 ≤ n && n < 300

/-- Projection of the error branch of an Except value. -/
def exceptError {α : Type} : Except String α → Option String
  | .error e => some e
  | .ok _ => none

/-- Reconciler entry for one externally observed (swapId, status)
pair as the webhook path drives it: unmapped statuses are dropped,
mapped ones go through updateOrder with the webhook metadata. -/
def applyExternal (order : Order) (extStatus : String)
    (dh sh : Option String) (now : Int) : Order × Bool :=
  match statusMap extStatus with
  | none => (order, false)
  | some s =>
    updateOrder order s (some ⟨dh, sh, some ("Webhook: " ++ extStatus)⟩) now

/-- Iterated application of the same external status at a list of
observation times. -/
def applyExternalTimes (order : Order) (extStatus : String)
    (dh sh : Option String) : List Int → Order
  | [] => order
  | t :: ts =>
    applyExternalTimes (applyExternal order extStatus dh sh t).1 extStatus dh sh ts

/-- Run a list of reconciler calls against one order, counting how
many times the completion hook fires. -/
def runCalls (order : Order) :
    List (PaymentStatus × Option UpdateMetadata × Int) → Order × Nat
  | [] => (order, 0)
  | (s, md, t) :: rest =>
    let step := updateOrder order s md t
    let tail := runCalls step.1 rest
    (tail.1, (if step.2 then 1 else 0) + tail.2)

/-- Number of completed entries in a status history. -/
def countCompleted (h : List HistoryEntry) : Nat :=
  (h.filter (fun e => e.status == .completed)).length

/-- Completion bookkeeping invariant: a non-completed order has no
completion timestamp and no completed history entry; a completed one
has the timestamp set and exactly one completed entry. -/
def CompletionInv (o : Order) : Prop :=
  (o.status ≠ .completed → o.completedAt = none ∧ countCompleted o.statusHistory = 0) ∧
  (o.status = .completed → o.completedAt.isSome = true ∧ countCompleted o.statusHistory = 1)

instance (o : Order) : Decidable (CompletionInv o) := by
  unfold CompletionInv; infer_instance

/-- A concrete order as createPayment persists it: pending status and
a single pending history entry. -/
def baseOrder : Order :=
  { orderId := "ord1"
    orderNumber := "ORD-1"
    items := [⟨"p1", "Widget", 1, 10⟩]
    totalUSD := 10
    customerEmail := "customer@example.com"
    customerWallet := none
    quoteId := some "q1"
    shiftId := some "shift1"
    depositCoin := "btc"
    depositNetwork := "mainnet"
    depositAddress := some "addr1"
    depositAmount := some "0.001"
    settleCoin := "usdc"
    settleNetwork := "arbitrum"
    settleAddress := "settle1"
    settleAmount := some "10"
    depositTxHash := none
    settleTxHash := none
    status := .pending
    statusHistory := [⟨.pending, 0, some "Payment created, waiting for deposit"⟩]
    quoteExpiresAt := some 600000
    expiryReminderSent := false
    exchangeRate := some 1
    quotedAt := some 0
    ipAddress := none
    userAgent := none
    affiliateId := none
    createdAt := 0
    updatedAt := 0
    completedAt := none }

/-- A completed order. -/
def ordCompleted : Order :=
  { baseOrder with
    status := .completed
    completedAt := some 3
    statusHistory := baseOrder.statusHistory ++ [⟨.completed, 3, none⟩] }

/-- A failed order, which the spec calls terminal. -/
def ordFailed : Order := { baseOrder with status := .failed }

/-- An order mid-swap. -/
def ordProcessing : Order := { baseOrder with status := .processing }

/-- An order stuck in settling since time 0. -/
def ordStuck : Order := { baseOrder with status := .settling }

/-- A pending order whose quote expired at time 5. -/
def ordExpiredQuote : Order := { baseOrder with quoteExpiresAt := some 5 }

/-- Two expired-pending orders for the sweep. -/
def ordA : Order := { baseOrder with orderId := "orda", quoteExpiresAt := some 5 }

def ordB : Order := { baseOrder with orderId := "ordb", quoteExpiresAt := some 5 }

/-- Environment where every save succeeds and every provider call
fails (timeout). -/
def envAllOk : Env := ⟨fun _ => true, fun _ => .error "provider timeout"⟩

/-- Environment whose provider answers with a status string outside
the mapping table. -/
def envUnknownStatus : Env := ⟨fun _ => true, fun _ => .ok ⟨"unknownStatus", none, none⟩⟩

/-- Environment where every save fails. -/
def envSaveFail : Env := ⟨fun _ => false, fun _ => .error "provider timeout"⟩

/-- Environment where only the save of order orda fails. -/
def envSaveFailA : Env := ⟨fun oid => oid != "orda", fun _ => .error "provider timeout"⟩

/-- Stability of one order under reapplication of the same external
status with the same payload hashes: the status is unmapped, or the
order is terminal, or the order already carries the mapped status and
hashes. -/
def StableExt (ext : String) (dh sh : Option String) (o : Order) : Prop :=
  statusMap ext = none ∨ terminalGuard o.status = true ∨
  (∃ s, statusMap ext = some s ∧ o.status = s ∧ terminalGuard s = false ∧
    (truthy dh = true → o.depositTxHash = dh) ∧
    (truthy sh = true → o.settleTxHash = sh))

/-- A concrete call sequence for the completion-once property. -/
def callsW : List (PaymentStatus × Option UpdateMetadata × Int) :=
  [(.processing, none, 1), (.completed, none, 2), (.pending, none, 3)]

/-! ## Shared helper lemmas -/

/-- Updating a fresh event id in an audit log that does not yet use
it touches exactly the appended record. -/
theorem auditUpdate_append_fresh (audit : List WebhookEventRec) (eid : String)
    (r0 : WebhookEventRec) (f : WebhookEventRec → WebhookEventRec)
    (hfresh : ∀ a ∈ audit, a.eventId ≠ eid) (h0 : r0.eventId = eid) :
    auditUpdate (audit ++ [r0]) eid f = audit ++ [f r0] := by
  induction audit with
  | nil => simp [auditUpdate, h0]
  | cons a as ih =>
    have ha : (a.eventId == eid) = false :=
      beq_eq_false_iff_ne.mpr (hfresh a (List.mem_cons_self a as))
    have ih2 := ih (fun b hb => hfresh b (List.mem_cons_of_mem a hb))
    simp only [auditUpdate, List.map_cons, List.cons_append] at *
    rw [ha]
    simp only [Bool.false_eq_true, if_false]
    exact congrArg (a :: ·) ih2

/-! ## Claim C1: terminal-state guard -/

/-- Claim C1 counterexample: the spec counts failed among the
terminal statuses, but the guard of updateOrderStatus only lists
completed, refunded and expired, so a failed order is not a no-op:
the reconciler overwrites its status. -/
theorem C1_counterexample :
    ordFailed.status = .failed ∧
    (updateOrder ordFailed .processing none 5).1 ≠ ordFailed := by
  decide

/-- Claim C1 (amended): for an order whose status is in the terminal
guard actually tested by the code — completed, refunded or expired,
the failed status is not guarded — updateOrderStatus is a no-op that
returns the unchanged order, and the completion hook is not invoked. -/
theorem C1_terminal_noop (env : Env) (store : Store) (oid : String)
    (order : Order) (ns : PaymentStatus) (md : Option UpdateMetadata) (now : Int)
    (hterm : order.status = .completed ∨ order.status = .refunded ∨
      order.status = .expired) :
    updateOrder order ns md now = (order, false) ∧
    (findByOrderId store oid = some order →
      updateOrderStatus env store oid ns md now = .ok ⟨store, order, false⟩) := by
  have hg : terminalGuard order.status = true := by
    rcases hterm with h | h | h <;> simp [terminalGuard, h]
  constructor
  · simp [updateOrder, hg]
  · intro hfind
    simp [updateOrderStatus, hfind, hg]

/-- Claim C1 witness: the guard applied to a concrete completed order. -/
theorem C1_witness :
    updateOrder ordCompleted .pending none 7 = (ordCompleted, false) ∧
    (findByOrderId [ordCompleted] "ord1" = some ordCompleted →
      updateOrderStatus envAllOk [ordCompleted] "ord1" .pending none 7 =
        .ok ⟨[ordCompleted], ordCompleted, false⟩) :=
  C1_terminal_noop envAllOk [ordCompleted] "ord1" ordCompleted .pending none 7
    (Or.inl rfl)

/-! ## Claim C10: frame of updateOrderStatus -/

/-- Claim C10 counterexample: beyond the five fields the claim
allows, a non-terminal update also refreshes the mongoose-managed
updatedAt timestamp of the order (the stuck-order sweep predicate
depends on this very field). -/
theorem C10_counterexample :
    (updateOrder baseOrder .processing none 99).1.updatedAt ≠ baseOrder.updatedAt := by
  decide

/-- Claim C10 (amended): on any outcome, the reconciler changes at
most status, statusHistory, depositTxHash, settleTxHash, completedAt
and the storage-managed updatedAt timestamp; every other order field
is unchanged and the status history is only ever appended to. -/
theorem C10_frame (order : Order) (ns : PaymentStatus)
    (md : Option UpdateMetadata) (now : Int) :
    (updateOrder order ns md now).1.orderId = order.orderId ∧
    (updateOrder order ns md now).1.orderNumber = order.orderNumber ∧
    (updateOrder order ns md now).1.items = order.items ∧
    (updateOrder order ns md now).1.totalUSD = order.totalUSD ∧
    (updateOrder order ns md now).1.customerEmail = order.customerEmail ∧
    (updateOrder order ns md now).1.customerWallet = order.customerWallet ∧
    (updateOrder order ns md now).1.quoteId = order.quoteId ∧
    (updateOrder order ns md now).1.shiftId = order.shiftId ∧
    (updateOrder order ns md now).1.depositCoin = order.depositCoin ∧
    (updateOrder order ns md now).1.depositNetwork = order.depositNetwork ∧
    (updateOrder order ns md now).1.depositAddress = order.depositAddress ∧
    (updateOrder order ns md now).1.depositAmount = order.depositAmount ∧
    (updateOrder order ns md now).1.settleCoin = order.settleCoin ∧
    (updateOrder order ns md now).1.settleNetwork = order.settleNetwork ∧
    (updateOrder order ns md now).1.settleAddress = order.settleAddress ∧
    (updateOrder order ns md now).1.settleAmount = order.settleAmount ∧
    (updateOrder order ns md now).1.quoteExpiresAt = order.quoteExpiresAt ∧
    (updateOrder order ns md now).1.expiryReminderSent = order.expiryReminderSent ∧
    (updateOrder order ns md now).1.exchangeRate = order.exchangeRate ∧
    (updateOrder order ns md now).1.quotedAt = order.quotedAt ∧
    (updateOrder order ns md now).1.ipAddress = order.ipAddress ∧
    (updateOrder order ns md now).1.userAgent = order.userAgent ∧
    (updateOrder order ns md now).1.affiliateId = order.affiliateId ∧
    (updateOrder order ns md now).1.createdAt = order.createdAt ∧
    ∃ l, (updateOrder order ns md now).1.statusHistory = order.statusHistory ++ l := by
  by_cases hg : terminalGuard order.status
  · have h : updateOrder order ns md now = (order, false) := by
      unfold updateOrder; rw [if_pos hg]
    rw [h]
    exact ⟨rfl, rfl, rfl, rfl, rfl, rfl, rfl, rfl, rfl, rfl, rfl, rfl, rfl, rfl,
      rfl, rfl, rfl, rfl, rfl, rfl, rfl, rfl, rfl, rfl, [], by simp⟩
  · have h : updateOrder order ns md now =
        (applyTransition order ns md now, ns == .completed) := by
      unfold updateOrder; rw [if_neg hg]
    rw [h]
    exact ⟨rfl, rfl, rfl, rfl, rfl, rfl, rfl, rfl, rfl, rfl, rfl, rfl, rfl, rfl,
      rfl, rfl, rfl, rfl, rfl, rfl, rfl, rfl, rfl, rfl,
      [⟨ns, now, md.bind UpdateMetadata.note⟩], rfl⟩

/-! ## Claim C3: statuses outside the mapping table -/

/-- Claim C3 counterexample: on the poll path an external status
outside the mapping table is rejected by the response schema of the
SideShift client, so pollShiftStatus raises an error to its caller
instead of silently ignoring the status. -/
theorem C3_counterexample :
    statusMap "unknownStatus" = none ∧
    exceptError (pollShiftStatus envUnknownStatus [ordProcessing] "ord1" 10) =
      some "Invalid shift status: unknownStatus" := by
  decide

/-- Claim C3 (amended): for an external status outside the mapping
table, the webhook path leaves the store unchanged and acknowledges
with 200; the poll path fails with a validation error surfaced to the
caller — the order is likewise left unchanged, but an error is
raised. -/
theorem C3_unmapped_noop :
    (∀ (env : Env) (store : Store) (audit : List WebhookEventRec)
        (payload : WebhookPayload) (eid : String) (now : Int) (order : Order)
        (s : String),
      payload.status = some s → statusMap s = none → truthy payload.id = true →
      findByShiftId store (payload.id.getD "") = some order →
      webhookPost env store audit payload eid now =
        ⟨⟨200, some true, none⟩, store,
         audit ++ [⟨eid, "shift." ++ s, payload.id, none, false, none, none, now⟩]⟩) ∧
    (∀ (env : Env) (store : Store) (oid : String) (now : Int) (order : Order)
        (raw : RawShiftStatus),
      findByOrderId store oid = some order → truthy order.shiftId = true →
      env.shiftApi (order.shiftId.getD "") = .ok raw →
      shiftStatusEnum.contains raw.status = false →
      pollShiftStatus env store oid now =
        .error ("Invalid shift status: " ++ raw.status)) := by
  constructor
  · intro env store audit payload eid now order s hs hmap hid hfind
    simp [webhookPost, hid, hfind, hs, hmap]
  · intro env store oid now order raw hfind hsid hapi henum
    have henum2 : raw.status ∉ shiftStatusEnum := by simpa using henum
    simp [pollShiftStatus, hfind, hsid, getShiftStatus, hapi, henum2]

/-- Claim C3 witness: both conjuncts applied at concrete inputs. -/
theorem C3_witness :
    webhookPost envAllOk [baseOrder] [] ⟨some "shift1", some "mystery", none, none⟩
        "e3" 4 =
      ⟨⟨200, some true, none⟩, [baseOrder],
       [⟨"e3", "shift." ++ "mystery", some "shift1", none, false, none, none, 4⟩]⟩ ∧
    pollShiftStatus envUnknownStatus [ordProcessing] "ord1" 10 =
      .error ("Invalid shift status: " ++ "unknownStatus") :=
  ⟨C3_unmapped_noop.1 envAllOk [baseOrder] []
      ⟨some "shift1", some "mystery", none, none⟩ "e3" 4 baseOrder "mystery"
      rfl (by decide) (by decide) (by decide),
   C3_unmapped_noop.2 envUnknownStatus [ordProcessing] "ord1" 10 ordProcessing
      ⟨"unknownStatus", none, none⟩ (by decide) (by decide) rfl (by decide)⟩

/-! ## Claim C5: acknowledgement classes of the webhook endpoint -/

/-- Claim C5 counterexample: a delivery that carries a correlation id
whose order does not exist is answered with HTTP 404, not with a
success-class acknowledgement. -/
theorem C5_counterexample :
    (webhookPost envAllOk [] [] ⟨some "s1", some "settled", none, none⟩
      "e1" 5).response.statusCode = 404 ∧
    successClass 404 = false := by
  decide

/-- Claim C5 (amended): a delivery without a correlation id gets 400;
with a correlation id whose order is unknown, 404; with a correlation
id whose order exists, always HTTP 200 — in particular also when the
reconciliation fails internally. -/
theorem C5_ack (env : Env) (store : Store) (audit : List WebhookEventRec)
    (payload : WebhookPayload) (eid : String) (now : Int) :
    (truthy payload.id = false →
      (webhookPost env store audit payload eid now).response.statusCode = 400) ∧
    (truthy payload.id = true → findByShiftId store (payload.id.getD "") = none →
      (webhookPost env store audit payload eid now).response.statusCode = 404) ∧
    (∀ order, truthy payload.id = true →
      findByShiftId store (payload.id.getD "") = some order →
      (webhookPost env store audit payload eid now).response.statusCode = 200) := by
  refine ⟨?_, ?_, ?_⟩
  · intro h; simp [webhookPost, h]
  · intro h hnone; simp [webhookPost, h, hnone]
  · intro order h hfind
    cases hm : payload.status.bind statusMap with
    | none => simp [webhookPost, h, hfind, hm]
    | some ns =>
      cases hu : updateOrderStatus env store order.orderId ns
          (webhookMetadata payload) now with
      | error e => simp [webhookPost, h, hfind, hm, hu]
      | ok out => simp [webhookPost, h, hfind, hm, hu]

/-- Claim C5 witness: an existing order whose reconciliation fails at
the storage layer is still acknowledged with HTTP 200. -/
theorem C5_witness :
    (webhookPost envSaveFail [baseOrder] []
      ⟨some "shift1", some "processing", none, none⟩ "e5" 9).response.statusCode = 200 :=
  (C5_ack envSaveFail [baseOrder] []
    ⟨some "shift1", some "processing", none, none⟩ "e5" 9).2.2 baseOrder
    (by decide) (by decide)

/-! ## Claim C6: shape validation and the audit record -/

/-- Claim C6 counterexample: a delivery with a correlation id but no
status string is not rejected as a ValidationError — it is answered
with HTTP 200 — and an audit record is persisted for it. -/
theorem C6_counterexample :
    (webhookPost envAllOk [baseOrder] [] ⟨some "shift1", none, none, none⟩
      "e1" 5).response.statusCode = 200 ∧
    (webhookPost envAllOk [baseOrder] [] ⟨some "shift1", none, none, none⟩
      "e1" 5).audit.length = 1 := by
  decide

/-- Claim C6 (amended): only a missing (or empty) correlation id is
rejected with the 400 validation response and no audit write; every
delivery with a correlation id — whether or not a status string is
present — persists exactly one audit record, independent of the
outcome of the reconciliation attempt. -/
theorem C6_validation_audit (env : Env) (store : Store)
    (audit : List WebhookEventRec) (payload : WebhookPayload) (eid : String)
    (now : Int) :
    (truthy payload.id = false →
      webhookPost env store audit payload eid now =
        ⟨⟨400, none, some "Invalid payload"⟩, store, audit⟩) ∧
    ((∀ a ∈ audit, a.eventId ≠ eid) → truthy payload.id = true →
      ∃ r1, (webhookPost env store audit payload eid now).audit = audit ++ [r1] ∧
        r1.eventId = eid ∧ r1.receivedAt = now ∧ r1.shiftId = payload.id) := by
  constructor
  · intro h; simp [webhookPost, h]
  · intro hfresh h
    cases hfind : findByShiftId store (payload.id.getD "") with
    | none =>
      refine ⟨{ eventId := eid, eventType := "shift." ++ payload.status.getD "undefined",
                shiftId := payload.id, orderId := none, processed := true,
                processedAt := some now, processingError := some "Order not found",
                receivedAt := now }, ?_, rfl, rfl, rfl⟩
      have hup := auditUpdate_append_fresh audit eid
        ⟨eid, "shift." ++ payload.status.getD "undefined", payload.id, none, false,
          none, none, now⟩
        (fun r =>
          { r with
            processed := true
            processedAt := some now
            processingError := some "Order not found" }) hfresh rfl
      simp [webhookPost, h, hfind, hup]
    | some order =>
      cases hm : payload.status.bind statusMap with
      | none =>
        exact ⟨⟨eid, "shift." ++ payload.status.getD "undefined", payload.id, none,
          false, none, none, now⟩, by simp [webhookPost, h, hfind, hm], rfl, rfl, rfl⟩
      | some ns =>
        cases hu : updateOrderStatus env store order.orderId ns
            (webhookMetadata payload) now with
        | error e =>
          exact ⟨⟨eid, "shift." ++ payload.status.getD "undefined", payload.id, none,
            false, none, none, now⟩, by simp [webhookPost, h, hfind, hm, hu], rfl, rfl, rfl⟩
        | ok out =>
          refine ⟨{ eventId := eid, eventType := "shift." ++ payload.status.getD "undefined",
                    shiftId := payload.id, orderId := some order.orderId, processed := true,
                    processedAt := some now, processingError := none,
                    receivedAt := now }, ?_, rfl, rfl, rfl⟩
          have hup := auditUpdate_append_fresh audit eid
            ⟨eid, "shift." ++ payload.status.getD "undefined", payload.id, none, false,
              none, none, now⟩
            (fun r =>
              { r with
                processed := true
                processedAt := some now
                orderId := some order.orderId }) hfresh rfl
          simp [webhookPost, h, hfind, hm, hu, hup]

/-- Claim C6 witness: one delivery with a correlation id persists one
audit record into an empty audit log. -/
theorem C6_witness :
    ∃ r1, (webhookPost envAllOk [baseOrder] []
        ⟨some "shift1", some "waiting", none, none⟩ "e6" 3).audit = [] ++ [r1] ∧
      r1.eventId = "e6" ∧ r1.receivedAt = 3 ∧ r1.shiftId = some "shift1" :=
  (C6_validation_audit envAllOk [baseOrder] []
    ⟨some "shift1", some "waiting", none, none⟩ "e6" 3).2
    (by intro a ha; cases ha) (by decide)

/-! ## Claim C7: errors raised during reconciliation -/

/-- Claim C7 counterexample: when the reconciliation of a delivery
fails, the handler answers 200, but the audit record is left
unprocessed and its processingError field stays empty — the error is
not recorded on the audit record. -/
theorem C7_counterexample :
    (webhookPost envSaveFail [baseOrder] []
      ⟨some "shift1", some "processing", none, none⟩ "e7" 9).response =
      ⟨200, some false, some "Processing error"⟩ ∧
    (webhookPost envSaveFail [baseOrder] []
      ⟨some "shift1", some "processing", none, none⟩ "e7" 9).audit.map
        (fun a => (a.processed, a.processingError)) = [(false, none)] := by
  decide

/-- Claim C7 (amended): an error raised by the reconciliation of a
delivery is caught and the transport response is still HTTP 200 (with
a success:false body), but the audit record is left exactly as
created: not processed, no processingError recorded, and the store is
unchanged. -/
theorem C7_reconcile_error (env : Env) (store : Store)
    (audit : List WebhookEventRec) (payload : WebhookPayload) (eid : String)
    (now : Int) (order : Order) (ns : PaymentStatus) (e : String)
    (hid : truthy payload.id = true)
    (hfind : findByShiftId store (payload.id.getD "") = some order)
    (hmap : payload.status.bind statusMap = some ns)
    (herr : updateOrderStatus env store order.orderId ns
      (webhookMetadata payload) now = .error e) :
    webhookPost env store audit payload eid now =
      ⟨⟨200, some false, some "Processing error"⟩, store,
       audit ++ [⟨eid, "shift." ++ payload.status.getD "undefined", payload.id,
                 none, false, none, none, now⟩]⟩ := by
  simp [webhookPost, hid, hfind, hmap, herr]

/-- Claim C7 witness: a concrete delivery whose reconciliation fails
at the storage layer. -/
theorem C7_witness :
    webhookPost envSaveFail [baseOrder] []
        ⟨some "shift1", some "processing", none, none⟩ "e7w" 9 =
      ⟨⟨200, some false, some "Processing error"⟩, [baseOrder],
       [⟨"e7w", "shift." ++ "processing", some "shift1", none, false, none,
         none, 9⟩]⟩ :=
  C7_reconcile_error envSaveFail [baseOrder] []
    ⟨some "shift1", some "processing", none, none⟩ "e7w" 9 baseOrder .processing
    "StorageError: save failed" (by decide) (by decide) (by decide) rfl

/-! ## Claim C2: idempotence of repeated application -/

/-- One application of an external status leaves the order in a
stable configuration. -/
theorem applyExternal_stable (o : Order) (ext : String) (dh sh : Option String)
    (t : Int) : StableExt ext dh sh (applyExternal o ext dh sh t).1 := by
  unfold StableExt
  cases hmap : statusMap ext with
  | none => exact Or.inl rfl
  | some s =>
    cases hg : terminalGuard o.status with
    | true =>
      have hres : (applyExternal o ext dh sh t).1 = o := by
        simp [applyExternal, hmap, updateOrder, hg]
      rw [hres]
      exact Or.inr (Or.inl hg)
    | false =>
      have hres : (applyExternal o ext dh sh t).1 =
          applyTransition o s (some ⟨dh, sh, some ("Webhook: " ++ ext)⟩) t := by
        simp [applyExternal, hmap, updateOrder, hg]
      rw [hres]
      cases hs : terminalGuard s with
      | true => exact Or.inr (Or.inl hs)
      | false =>
        refine Or.inr (Or.inr ⟨s, rfl, rfl, hs, ?_, ?_⟩)
        · intro hc
          show (if truthy dh then dh else o.depositTxHash) = dh
          simp [hc]
        · intro hc
          show (if truthy sh then sh else o.settleTxHash) = sh
          simp [hc]

/-- Reapplying the same external status to a stable order preserves
status, transaction hashes and completion timestamp, only appends to
the history, and keeps the order stable. -/
theorem stable_step (o : Order) (ext : String) (dh sh : Option String) (t : Int)
    (h : StableExt ext dh sh o) :
    (applyExternal o ext dh sh t).1.status = o.status ∧
    (applyExternal o ext dh sh t).1.depositTxHash = o.depositTxHash ∧
    (applyExternal o ext dh sh t).1.settleTxHash = o.settleTxHash ∧
    (applyExternal o ext dh sh t).1.completedAt = o.completedAt ∧
    (∃ l, (applyExternal o ext dh sh t).1.statusHistory = o.statusHistory ++ l) ∧
    StableExt ext dh sh (applyExternal o ext dh sh t).1 := by
  have hstable := applyExternal_stable o ext dh sh t
  rcases h with hmap | hterm | ⟨s, hmap, hst, hsg, hdh, hsh⟩
  · have hres : (applyExternal o ext dh sh t).1 = o := by simp [applyExternal, hmap]
    rw [hres]
    exact ⟨rfl, rfl, rfl, rfl, ⟨[], by simp⟩, Or.inl hmap⟩
  · have hres : (applyExternal o ext dh sh t).1 = o := by
      unfold applyExternal
      cases hmap2 : statusMap ext with
      | none => rfl
      | some s => simp [updateOrder, hterm]
    rw [hres]
    exact ⟨rfl, rfl, rfl, rfl, ⟨[], by simp⟩, Or.inr (Or.inl hterm)⟩
  · have hg : terminalGuard o.status = false := by rw [hst]; exact hsg
    have hcb : (s == PaymentStatus.completed) = false := by
      cases hc : s == PaymentStatus.completed
      · rfl
      · exfalso
        unfold terminalGuard at hsg
        rw [hc] at hsg
        simp at hsg
    have hres : (applyExternal o ext dh sh t).1 =
        applyTransition o s (some ⟨dh, sh, some ("Webhook: " ++ ext)⟩) t := by
      simp [applyExternal, hmap, updateOrder, hg]
    rw [hres]
    refine ⟨hst.symm, ?_, ?_, ?_, ⟨_, rfl⟩, ?_⟩
    · show (if truthy dh then dh else o.depositTxHash) = o.depositTxHash
      cases hc : truthy dh
      · rfl
      · simp [hdh hc]
    · show (if truthy sh then sh else o.settleTxHash) = o.settleTxHash
      cases hc : truthy sh
      · rfl
      · simp [hsh hc]
    · show (if (s == PaymentStatus.completed) then some t else o.completedAt) = o.completedAt
      rw [hcb]
      rfl
    · refine Or.inr (Or.inr ⟨s, hmap, rfl, hsg, ?_, ?_⟩)
      · intro hc
        show (if truthy dh then dh else o.depositTxHash) = dh
        simp [hc]
      · intro hc
        show (if truthy sh then sh else o.settleTxHash) = sh
        simp [hc]

/-- Iterating from a stable order preserves status, hashes and the
completion timestamp, and only appends to the history. -/
theorem stable_run (ext : String) (dh sh : Option String) (ts : List Int) :
    ∀ o : Order, StableExt ext dh sh o →
    (applyExternalTimes o ext dh sh ts).status = o.status ∧
    (applyExternalTimes o ext dh sh ts).depositTxHash = o.depositTxHash ∧
    (applyExternalTimes o ext dh sh ts).settleTxHash = o.settleTxHash ∧
    (applyExternalTimes o ext dh sh ts).completedAt = o.completedAt ∧
    ∃ l, (applyExternalTimes o ext dh sh ts).statusHistory = o.statusHistory ++ l := by
  induction ts with
  | nil => intro o h; exact ⟨rfl, rfl, rfl, rfl, ⟨[], (List.append_nil _).symm⟩⟩
  | cons t ts ih =>
    intro o h
    obtain ⟨h1, h2, h3, h4, ⟨l1, hl1⟩, hstable⟩ := stable_step o ext dh sh t h
    obtain ⟨g1, g2, g3, g4, ⟨l2, hl2⟩⟩ := ih (applyExternal o ext dh sh t).1 hstable
    have hdef : applyExternalTimes o ext dh sh (t :: ts) =
        applyExternalTimes (applyExternal o ext dh sh t).1 ext dh sh ts := rfl
    rw [hdef]
    refine ⟨g1.trans h1, g2.trans h2, g3.trans h3, g4.trans h4, ⟨l1 ++ l2, ?_⟩⟩
    rw [hl2, hl1, List.append_assoc]

/-- Claim C2 counterexample: applying the same external status twice
is observably different from applying it once — the reconciler
appends one history entry per application of a non-terminal mapped
status, even at identical timestamps. -/
theorem C2_counterexample :
    applyExternalTimes baseOrder "waiting" none none [1, 1] ≠
      applyExternalTimes baseOrder "waiting" none none [1] := by
  decide

/-- Claim C2 (amended): applying the same (swapId, externalStatus)
pair N times instead of once yields the same status, the same
transaction hashes and the same completion timestamp; the
statusHistory of the N-fold application extends that of the single
application (by one observed-again entry per extra application of a
non-terminal mapped status, and by nothing when the status is
unmapped or the reached state is terminal). -/
theorem C2_idempotent_modulo_history (order : Order) (ext : String)
    (dh sh : Option String) (t : Int) (ts : List Int) :
    (applyExternalTimes order ext dh sh (t :: ts)).status =
      (applyExternalTimes order ext dh sh [t]).status ∧
    (applyExternalTimes order ext dh sh (t :: ts)).depositTxHash =
      (applyExternalTimes order ext dh sh [t]).depositTxHash ∧
    (applyExternalTimes order ext dh sh (t :: ts)).settleTxHash =
      (applyExternalTimes order ext dh sh [t]).settleTxHash ∧
    (applyExternalTimes order ext dh sh (t :: ts)).completedAt =
      (applyExternalTimes order ext dh sh [t]).completedAt ∧
    ∃ l, (applyExternalTimes order ext dh sh (t :: ts)).statusHistory =
      (applyExternalTimes order ext dh sh [t]).statusHistory ++ l :=
  stable_run ext dh sh ts (applyExternal order ext dh sh t).1
    (applyExternal_stable order ext dh sh t)

/-! ## Claim C8: completion happens exactly once -/

/-- Counting completed entries distributes over an appended entry. -/
theorem countCompleted_append (h : List HistoryEntry) (e : HistoryEntry) :
    countCompleted (h ++ [e]) =
      countCompleted h + (if e.status == PaymentStatus.completed then 1 else 0) := by
  unfold countCompleted
  rw [List.filter_append, List.length_append]
  congr 1
  cases hc : e.status == PaymentStatus.completed <;> simp [List.filter, hc]

/-- A status outside the terminal guard is not completed. -/
theorem not_completed_of_guard_false {st : PaymentStatus}
    (h : terminalGuard st = false) : st ≠ .completed := by
  intro hc
  rw [hc] at h
  exact absurd h (by decide)

/-- The reconciler never leaves a guarded terminal state. -/
theorem runCalls_terminal (o : Order)
    (calls : List (PaymentStatus × Option UpdateMetadata × Int))
    (h : terminalGuard o.status = true) : runCalls o calls = (o, 0) := by
  induction calls with
  | nil => rfl
  | cons c rest ih =>
    obtain ⟨s, md, t⟩ := c
    simp [runCalls, updateOrder, h, ih]

/-- One reconciler call preserves the completion invariant, and the
hook fires exactly on a transition from not-completed to completed. -/
theorem updateOrder_inv (o : Order) (s : PaymentStatus)
    (md : Option UpdateMetadata) (t : Int) (h : CompletionInv o) :
    CompletionInv (updateOrder o s md t).1 ∧
    ((updateOrder o s md t).2 = true ↔
      (o.status ≠ .completed ∧ (updateOrder o s md t).1.status = .completed)) := by
  cases hg : terminalGuard o.status with
  | true =>
    have hres : updateOrder o s md t = (o, false) := by simp [updateOrder, hg]
    rw [hres]
    refine ⟨h, ?_⟩
    constructor
    · intro hc; cases hc
    · intro ⟨hc1, hc2⟩; exact absurd hc2 hc1
  | false =>
    have hnc : o.status ≠ .completed := not_completed_of_guard_false hg
    obtain ⟨hca, hcount⟩ := h.1 hnc
    have hres : updateOrder o s md t =
        (applyTransition o s md t, s == PaymentStatus.completed) := by
      simp [updateOrder, hg]
    rw [hres]
    have hstat : (applyTransition o s md t).status = s := rfl
    have hhist : (applyTransition o s md t).statusHistory =
        o.statusHistory ++ [⟨s, t, md.bind UpdateMetadata.note⟩] := rfl
    have hcomp : (applyTransition o s md t).completedAt =
        (if s == PaymentStatus.completed then some t else o.completedAt) := rfl
    constructor
    · constructor
      · intro hne
        rw [hstat] at hne
        have hsb : (s == PaymentStatus.completed) = false := by
          cases hc : s == PaymentStatus.completed
          · rfl
          · exact absurd (beq_iff_eq.mp hc) hne
        constructor
        · rw [hcomp, hsb, hca]
          rfl
        · rw [hhist, countCompleted_append, hcount, hsb]
          simp
      · intro heq
        rw [hstat] at heq
        have hsb : (s == PaymentStatus.completed) = true := beq_iff_eq.mpr heq
        constructor
        · rw [hcomp, hsb]
          rfl
        · rw [hhist, countCompleted_append, hcount, hsb]
          simp
    · rw [hstat]
      constructor
      · intro hc
        exact ⟨hnc, beq_iff_eq.mp hc⟩
      · intro ⟨hc1, hc2⟩
        exact beq_iff_eq.mpr hc2

/-- Running a call sequence preserves the completion invariant and
fires the hook exactly once, namely on the run that first reaches
completed. -/
theorem runCalls_inv (calls : List (PaymentStatus × Option UpdateMetadata × Int)) :
    ∀ o : Order, CompletionInv o →
    CompletionInv (runCalls o calls).1 ∧
    (runCalls o calls).2 =
      (if (runCalls o calls).1.status = .completed ∧ o.status ≠ .completed
       then 1 else 0) := by
  induction calls with
  | nil =>
    intro o h
    refine ⟨h, ?_⟩
    by_cases hc : o.status = .completed
    · simp [runCalls, hc]
    · simp [runCalls, hc]
  | cons c rest ih =>
    obtain ⟨s, md, t⟩ := c
    intro o h
    obtain ⟨hinv1, hhook⟩ := updateOrder_inv o s md t h
    obtain ⟨hinv2, hcount⟩ := ih (updateOrder o s md t).1 hinv1
    have hdef : runCalls o ((s, md, t) :: rest) =
        ((runCalls (updateOrder o s md t).1 rest).1,
         (if (updateOrder o s md t).2 then 1 else 0) +
           (runCalls (updateOrder o s md t).1 rest).2) := rfl
    rw [hdef]
    refine ⟨hinv2, ?_⟩
    cases hstep : (updateOrder o s md t).2 with
    | true =>
      obtain ⟨honc, hsc⟩ := hhook.mp hstep
      have hterm2 : terminalGuard (updateOrder o s md t).1.status = true := by
        rw [hsc]; rfl
      have habs := runCalls_terminal (updateOrder o s md t).1 rest hterm2
      rw [habs]
      simp [hsc, honc]
    | false =>
      rw [hcount]
      have hiff : ((updateOrder o s md t).1.status ≠ PaymentStatus.completed) ↔
          (o.status ≠ PaymentStatus.completed) := by
        cases hg : terminalGuard o.status with
        | true =>
          have hid : updateOrder o s md t = (o, false) := by simp [updateOrder, hg]
          rw [hid]
        | false =>
          have honc : o.status ≠ .completed := not_completed_of_guard_false hg
          have hstepnc : (updateOrder o s md t).1.status ≠ .completed := by
            intro hc
            have hcon : (updateOrder o s md t).2 = true := hhook.mpr ⟨honc, hc⟩
            rw [hstep] at hcon
            cases hcon
          exact ⟨fun _ => honc, fun _ => hstepnc⟩
      by_cases hfc : (runCalls (updateOrder o s md t).1 rest).1.status = .completed
      · by_cases ho : o.status = .completed
        · have hsc : (updateOrder o s md t).1.status = .completed := by
            by_contra hcon
            exact (hiff.mp hcon) ho
          simp [hfc, ho, hsc]
        · have hsnc : (updateOrder o s md t).1.status ≠ .completed := hiff.mpr ho
          simp [hfc, ho, hsnc]
      · simp [hfc]

/-- Claim C8: over any sequence of reconciler calls on an order that
satisfies the completion invariant and is not yet completed, the
final history has at most one completed entry (exactly one when the
final status is completed), the completion timestamp is set exactly
when the order is completed, and the completion hook fires exactly
once — on the first transition into completed — and never again. -/
theorem C8_completion_once (o : Order)
    (calls : List (PaymentStatus × Option UpdateMetadata × Int))
    (hinv : CompletionInv o) (h0 : o.status ≠ .completed) :
    countCompleted (runCalls o calls).1.statusHistory ≤ 1 ∧
    ((runCalls o calls).1.completedAt.isSome = true ↔
      (runCalls o calls).1.status = .completed) ∧
    (countCompleted (runCalls o calls).1.statusHistory = 1 ↔
      (runCalls o calls).1.status = .completed) ∧
    (runCalls o calls).2 =
      (if (runCalls o calls).1.status = .completed then 1 else 0) := by
  obtain ⟨hfin, hcnt⟩ := runCalls_inv calls o hinv
  obtain ⟨hnc, hc⟩ := hfin
  by_cases hs : (runCalls o calls).1.status = .completed
  · obtain ⟨hca, h1⟩ := hc hs
    refine ⟨by rw [h1], ⟨fun _ => hs, fun _ => hca⟩, ⟨fun _ => hs, fun _ => h1⟩, ?_⟩
    rw [hcnt]
    simp [hs, h0]
  · obtain ⟨hca, h1⟩ := hnc hs
    refine ⟨by rw [h1]; exact Nat.zero_le 1, ?_, ?_, ?_⟩
    · constructor
      · intro hcontra
        rw [hca] at hcontra
        cases hcontra
      · intro hcontra; exact absurd hcontra hs
    · constructor
      · intro hcontra
        rw [h1] at hcontra
        cases hcontra
      · intro hcontra; exact absurd hcontra hs
    · rw [hcnt]
      simp [hs]

/-- Claim C8 witness: a concrete run that completes once and then
sees a late event. -/
theorem C8_witness :
    countCompleted (runCalls baseOrder callsW).1.statusHistory ≤ 1 ∧
    ((runCalls baseOrder callsW).1.completedAt.isSome = true ↔
      (runCalls baseOrder callsW).1.status = .completed) ∧
    (countCompleted (runCalls baseOrder callsW).1.statusHistory = 1 ↔
      (runCalls baseOrder callsW).1.status = .completed) ∧
    (runCalls baseOrder callsW).2 =
      (if (runCalls baseOrder callsW).1.status = .completed then 1 else 0) :=
  C8_completion_once baseOrder callsW (by decide) (by decide)

/-! ## Store-level lemmas for the monitor sweep -/

/-- Saving a document does not change the list of order ids. -/
theorem storeSave_ids (s : Store) (o : Order) :
    (storeSave s o).map Order.orderId = s.map Order.orderId := by
  induction s with
  | nil => rfl
  | cons x xs ih =>
    show (if x.orderId == o.orderId then o else x).orderId ::
        (storeSave xs o).map Order.orderId = x.orderId :: xs.map Order.orderId
    rw [ih]
    cases hb : x.orderId == o.orderId with
    | false => rw [if_neg (by simp [hb])]
    | true => rw [if_pos (by simp [hb]), (beq_iff_eq.mp hb)]

/-- A successful lookup returns an order bearing the looked-up id. -/
theorem findByOrderId_some_id {s : Store} {oid : String} {o : Order}
    (h : findByOrderId s oid = some o) : o.orderId = oid := by
  have hp := List.find?_some h
  exact beq_iff_eq.mp hp

/-- A successful lookup returns a member of the store. -/
theorem findByOrderId_mem {s : Store} {oid : String} {o : Order}
    (h : findByOrderId s oid = some o) : o ∈ s :=
  List.mem_of_find?_eq_some h

/-- A lookup for an id carried by some member succeeds. -/
theorem findByOrderId_isSome_of_mem {s : Store} {a : String}
    (h : ∃ x ∈ s, x.orderId = a) : (findByOrderId s a).isSome := by
  unfold findByOrderId
  rw [List.find?_isSome]
  obtain ⟨x, hx, he⟩ := h
  exact ⟨x, hx, by rw [he]; exact beq_self_eq_true a⟩

/-- Transfer of id-presence along an equality of id lists. -/
theorem exists_id_of_ids_eq {s s2 : Store} {a : String}
    (hids : s2.map Order.orderId = s.map Order.orderId)
    (h : ∃ x ∈ s, x.orderId = a) : ∃ x ∈ s2, x.orderId = a := by
  obtain ⟨x, hx, he⟩ := h
  have hmem : a ∈ s2.map Order.orderId := by
    rw [hids, ← he]
    exact List.mem_map_of_mem Order.orderId hx
  obtain ⟨y, hy, hye⟩ := List.mem_map.mp hmem
  exact ⟨y, hy, hye⟩

/-- Reconciler equation: unknown id. -/
theorem updateOrderStatus_eq_notfound {env : Env} {s : Store} {oid : String}
    (hf : findByOrderId s oid = none) (ns : PaymentStatus)
    (md : Option UpdateMetadata) (t : Int) :
    updateOrderStatus env s oid ns md t =
      .error ("Order " ++ oid ++ " not found") := by
  unfold updateOrderStatus
  rw [hf]

/-- Reconciler equation: terminal no-op. -/
theorem updateOrderStatus_eq_terminal {env : Env} {s : Store} {oid : String}
    {o : Order} (hf : findByOrderId s oid = some o)
    (hg : terminalGuard o.status = true) (ns : PaymentStatus)
    (md : Option UpdateMetadata) (t : Int) :
    updateOrderStatus env s oid ns md t = .ok ⟨s, o, false⟩ := by
  unfold updateOrderStatus
  rw [hf]
  simp [hg]

/-- Reconciler equation: applied transition with a successful save. -/
theorem updateOrderStatus_eq_apply {env : Env} {s : Store} {oid : String}
    {o : Order} (hf : findByOrderId s oid = some o)
    (hg : terminalGuard o.status = false) (hsv : env.saveOk oid = true)
    (ns : PaymentStatus) (md : Option UpdateMetadata) (t : Int) :
    updateOrderStatus env s oid ns md t =
      .ok ⟨storeSave s (applyTransition o ns md t), applyTransition o ns md t,
           ns == PaymentStatus.completed⟩ := by
  unfold updateOrderStatus
  rw [hf]
  simp [hg, hsv]

/-- Reconciler equation: rejected save. -/
theorem updateOrderStatus_eq_savefail {env : Env} {s : Store} {oid : String}
    {o : Order} (hf : findByOrderId s oid = some o)
    (hg : terminalGuard o.status = false) (hsv : env.saveOk oid = false)
    (ns : PaymentStatus) (md : Option UpdateMetadata) (t : Int) :
    updateOrderStatus env s oid ns md t = .error "StorageError: save failed" := by
  unfold updateOrderStatus
  rw [hf]
  simp [hg, hsv]

/-- A successful reconciler write preserves the list of order ids. -/
theorem updateOrderStatus_ids {env : Env} {s : Store} {oid : String}
    {ns : PaymentStatus} {md : Option UpdateMetadata} {t : Int}
    {out : UpdateOutcome}
    (h : updateOrderStatus env s oid ns md t = .ok out) :
    out.store.map Order.orderId = s.map Order.orderId := by
  cases hf : findByOrderId s oid with
  | none => rw [updateOrderStatus_eq_notfound hf ns md t] at h; cases h
  | some o =>
    cases hg : terminalGuard o.status with
    | true =>
      rw [updateOrderStatus_eq_terminal hf hg ns md t] at h
      cases h
      rfl
    | false =>
      cases hsv : env.saveOk oid with
      | false => rw [updateOrderStatus_eq_savefail hf hg hsv ns md t] at h; cases h
      | true =>
        rw [updateOrderStatus_eq_apply hf hg hsv ns md t] at h
        cases h
        exact storeSave_ids s _

/-- A successful reconciler write leaves every order with a different
id untouched. -/
theorem updateOrderStatus_frame {env : Env} {s : Store} {oid : String}
    {ns : PaymentStatus} {md : Option UpdateMetadata} {t : Int}
    {out : UpdateOutcome}
    (h : updateOrderStatus env s oid ns md t = .ok out) :
    ∀ x ∈ s, x.orderId ≠ oid → x ∈ out.store := by
  intro x hx hne
  cases hf : findByOrderId s oid with
  | none => rw [updateOrderStatus_eq_notfound hf ns md t] at h; cases h
  | some o =>
    have hoid : o.orderId = oid := findByOrderId_some_id hf
    cases hg : terminalGuard o.status with
    | true =>
      rw [updateOrderStatus_eq_terminal hf hg ns md t] at h
      cases h
      exact hx
    | false =>
      cases hsv : env.saveOk oid with
      | false => rw [updateOrderStatus_eq_savefail hf hg hsv ns md t] at h; cases h
      | true =>
        rw [updateOrderStatus_eq_apply hf hg hsv ns md t] at h
        cases h
        show x ∈ storeSave s (applyTransition o ns md t)
        have hb : (x.orderId == (applyTransition o ns md t).orderId) = false := by
          have hto : (applyTransition o ns md t).orderId = oid := hoid
          rw [hto]
          exact beq_eq_false_iff_ne.mpr hne
        have hmm := List.mem_map_of_mem
          (fun y => if y.orderId == (applyTransition o ns md t).orderId
            then applyTransition o ns md t else y) hx
        simp only [hb, Bool.false_eq_true, if_false] at hmm
        exact hmm

/-- With a cooperating storage layer, the reconciler succeeds on any
present id. -/
theorem updateOrderStatus_ok_exists {env : Env} {s : Store} {oid : String}
    (ns : PaymentStatus) (md : Option UpdateMetadata) (t : Int)
    (hsave : ∀ i, env.saveOk i = true)
    (hfind : (findByOrderId s oid).isSome) :
    ∃ out, updateOrderStatus env s oid ns md t = .ok out := by
  obtain ⟨o, ho⟩ := Option.isSome_iff_exists.mp hfind
  cases hg : terminalGuard o.status with
  | true => exact ⟨_, updateOrderStatus_eq_terminal ho hg ns md t⟩
  | false => exact ⟨_, updateOrderStatus_eq_apply ho hg (hsave oid) ns md t⟩

/-- Category 1 of the sweep succeeds when storage cooperates and
every candidate id is present, and preserves the id list. -/
theorem processExpired_ok (env : Env) (now : Int)
    (hsave : ∀ i, env.saveOk i = true) :
    ∀ (cands : List Order) (s : Store),
      (∀ c ∈ cands, ∃ x ∈ s, x.orderId = c.orderId) →
      ∃ s2, processExpired env s now cands = .ok s2 ∧
        s2.map Order.orderId = s.map Order.orderId := by
  intro cands
  induction cands with
  | nil => intro s _; exact ⟨s, rfl, rfl⟩
  | cons c rest ih =>
    intro s h
    obtain ⟨out, hout⟩ := updateOrderStatus_ok_exists .expired
      (some ⟨none, none, some "Quote expired without deposit"⟩) now hsave
      (findByOrderId_isSome_of_mem (h c (List.mem_cons_self c rest)))
    have hids := updateOrderStatus_ids hout
    obtain ⟨s2, hs2, hids2⟩ := ih out.store (fun c2 hc2 =>
      exists_id_of_ids_eq hids (h c2 (List.mem_cons_of_mem c hc2)))
    refine ⟨s2, ?_, hids2.trans hids⟩
    show (match updateOrderStatus env s c.orderId .expired
        (some ⟨none, none, some "Quote expired without deposit"⟩) now with
      | .error e => Except.error e
      | .ok out => processExpired env out.store now rest) = .ok s2
    rw [hout]
    exact hs2

/-- Category 2 of the sweep succeeds when storage cooperates, and
preserves the id list. -/
theorem processReminders_ok (env : Env) (now : Int)
    (hsave : ∀ i, env.saveOk i = true) :
    ∀ (cands : List Order) (s : Store),
      ∃ s2, processReminders env s now cands = .ok s2 ∧
        s2.map Order.orderId = s.map Order.orderId := by
  intro cands
  induction cands with
  | nil => intro s; exact ⟨s, rfl, rfl⟩
  | cons c rest ih =>
    intro s
    obtain ⟨s2, hs2, hids⟩ := ih
      (storeSave s { c with expiryReminderSent := true, updatedAt := now })
    refine ⟨s2, ?_, hids.trans (storeSave_ids s _)⟩
    show (if env.saveOk c.orderId then
        processReminders env
          (storeSave s { c with expiryReminderSent := true, updatedAt := now })
          now rest
      else Except.error "StorageError: save failed") = .ok s2
    rw [if_pos (by simp [hsave c.orderId])]
    exact hs2

/-- Category 3 of the sweep succeeds when storage cooperates and
every candidate id is present, and preserves the id list. -/
theorem processAbandoned_ok (env : Env) (now : Int)
    (hsave : ∀ i, env.saveOk i = true) :
    ∀ (cands : List Order) (s : Store),
      (∀ c ∈ cands, ∃ x ∈ s, x.orderId = c.orderId) →
      ∃ s2, processAbandoned env s now cands = .ok s2 ∧
        s2.map Order.orderId = s.map Order.orderId := by
  intro cands
  induction cands with
  | nil => intro s _; exact ⟨s, rfl, rfl⟩
  | cons c rest ih =>
    intro s h
    obtain ⟨out, hout⟩ := updateOrderStatus_ok_exists .expired
      (some ⟨none, none, some "Abandoned - 24 hours without deposit"⟩) now hsave
      (findByOrderId_isSome_of_mem (h c (List.mem_cons_self c rest)))
    have hids := updateOrderStatus_ids hout
    obtain ⟨s2, hs2, hids2⟩ := ih out.store (fun c2 hc2 =>
      exists_id_of_ids_eq hids (h c2 (List.mem_cons_of_mem c hc2)))
    refine ⟨s2, ?_, hids2.trans hids⟩
    show (match updateOrderStatus env s c.orderId .expired
        (some ⟨none, none, some "Abandoned - 24 hours without deposit"⟩) now with
      | .error e => Except.error e
      | .ok out => processAbandoned env out.store now rest) = .ok s2
    rw [hout]
    exact hs2

/-! ## Claim C4: error isolation in the sweep -/

/-- Claim C4 counterexample: both orders qualify as expired-pending
candidates; the storage failure on the first one makes the whole
sweep throw, so the failure is not isolated to the item and the
second candidate is never processed. -/
theorem C4_counterexample :
    isExpiredPending 10 ordA = true ∧ isExpiredPending 10 ordB = true ∧
    exceptError (monitorPayments envSaveFailA [ordA, ordB] 10) =
      some "StorageError: save failed" := by
  decide

/-- Claim C4 (amended): only the stuck-in-flight category catches
per-item failures — with a cooperating storage layer for the other
three categories the sweep returns its summary even when every
provider poll of a stuck order fails; a per-item failure in the
expired, reminder or abandoned categories instead aborts the sweep. -/
theorem C4_stuck_isolated (env : Env) (store : Store) (now : Int)
    (hsave : ∀ i, env.saveOk i = true) :
    ∃ result, monitorPayments env store now = .ok result := by
  obtain ⟨s1, h1, hi1⟩ := processExpired_ok env now hsave
    (store.filter (isExpiredPending now)) store
    (fun c hc => ⟨c, List.mem_of_mem_filter hc, rfl⟩)
  obtain ⟨s2, h2, hi2⟩ := processReminders_ok env now hsave
    (s1.filter (isExpiringSoon now)) s1
  obtain ⟨s3, h3, hi3⟩ := processAbandoned_ok env now hsave
    (s2.filter (isAbandoned now)) s2
    (fun c hc => ⟨c, List.mem_of_mem_filter hc, rfl⟩)
  exact ⟨(⟨(store.filter (isExpiredPending now)).length,
           (s1.filter (isExpiringSoon now)).length,
           (s2.filter (isAbandoned now)).length,
           (s3.filter (isStuck now)).length⟩,
          processStuck env s3 now (s3.filter (isStuck now))),
    by unfold monitorPayments; simp only [h1, h2, h3]⟩

/-- Claim C4 witness: a sweep over one stuck order whose provider
poll fails still returns a summary. -/
theorem C4_witness :
    ∃ result, monitorPayments envAllOk [ordStuck] 10000000 = .ok result :=
  C4_stuck_isolated envAllOk [ordStuck] 10000000 (fun _ => rfl)

/-! ## Uniqueness and frame lemmas for claim C9 -/

/-- In a store with pairwise distinct ids, members are determined by
their id. -/
theorem mem_eq_of_ids_nodup {s : Store} (hnd : (s.map Order.orderId).Nodup)
    {x y : Order} (hx : x ∈ s) (hy : y ∈ s) (he : x.orderId = y.orderId) :
    x = y := by
  induction s with
  | nil => cases hx
  | cons a as ih =>
    rw [List.map_cons, List.nodup_cons] at hnd
    cases hx with
    | head =>
      cases hy with
      | head => rfl
      | tail _ hy2 =>
        exact absurd (he ▸ List.mem_map_of_mem Order.orderId hy2) hnd.1
    | tail _ hx2 =>
      cases hy with
      | head =>
        exact absurd (he ▸ List.mem_map_of_mem Order.orderId hx2) hnd.1
      | tail _ hy2 => exact ih hnd.2 hx2 hy2

/-- In a store with pairwise distinct ids, a lookup by the id of a
member finds that member. -/
theorem findByOrderId_eq_of_mem_nodup {s : Store}
    (hnd : (s.map Order.orderId).Nodup) {x : Order} (hx : x ∈ s) :
    findByOrderId s x.orderId = some x := by
  induction s with
  | nil => cases hx
  | cons a as ih =>
    rw [List.map_cons, List.nodup_cons] at hnd
    cases hx with
    | head =>
      unfold findByOrderId
      exact List.find?_cons_of_pos as (beq_self_eq_true x.orderId)
    | tail _ hx2 =>
      have hne : ¬((fun o => o.orderId == x.orderId) a = true) := by
        simp only [beq_iff_eq]
        intro he
        exact hnd.1 (he ▸ List.mem_map_of_mem Order.orderId hx2)
      unfold findByOrderId
      rw [List.find?_cons_of_neg as hne]
      exact ih hnd.2 hx2

/-- Saving an order with a different id leaves a member in place. -/
theorem mem_storeSave_of_ne {s : Store} {x o : Order} (hx : x ∈ s)
    (hne : x.orderId ≠ o.orderId) : x ∈ storeSave s o := by
  have hb : (x.orderId == o.orderId) = false := beq_eq_false_iff_ne.mpr hne
  have hmm := List.mem_map_of_mem (fun y => if y.orderId == o.orderId then o else y) hx
  simp only [hb, Bool.false_eq_true, if_false] at hmm
  exact hmm

/-- Saving an order over a member with the same id puts it in the
store. -/
theorem mem_storeSave_self {s : Store} {x : Order} (hx : x ∈ s) (o : Order)
    (he : x.orderId = o.orderId) : o ∈ storeSave s o := by
  have hmm := List.mem_map_of_mem (fun y => if y.orderId == o.orderId then o else y) hx
  simp only [he, beq_self_eq_true, if_true] at hmm
  exact hmm

/-- Unfolding equation for category 1 of the sweep. -/
theorem processExpired_cons (env : Env) (s : Store) (now : Int) (c : Order)
    (rest : List Order) :
    processExpired env s now (c :: rest) =
      match updateOrderStatus env s c.orderId .expired
          (some ⟨none, none, some "Quote expired without deposit"⟩) now with
      | .error e => .error e
      | .ok out => processExpired env out.store now rest := rfl

/-- Unfolding equation for category 2 of the sweep. -/
theorem processReminders_cons (env : Env) (s : Store) (now : Int) (c : Order)
    (rest : List Order) :
    processReminders env s now (c :: rest) =
      (if env.saveOk c.orderId then
        processReminders env
          (storeSave s { c with expiryReminderSent := true, updatedAt := now })
          now rest
      else .error "StorageError: save failed") := rfl

/-- Unfolding equation for category 3 of the sweep. -/
theorem processAbandoned_cons (env : Env) (s : Store) (now : Int) (c : Order)
    (rest : List Order) :
    processAbandoned env s now (c :: rest) =
      match updateOrderStatus env s c.orderId .expired
          (some ⟨none, none, some "Abandoned - 24 hours without deposit"⟩) now with
      | .error e => .error e
      | .ok out => processAbandoned env out.store now rest := rfl

/-- Unfolding equation for category 4 of the sweep. -/
theorem processStuck_cons (env : Env) (s : Store) (now : Int) (c : Order)
    (rest : List Order) :
    processStuck env s now (c :: rest) =
      (if !truthy c.shiftId then processStuck env s now rest
      else match pollShiftStatus env s c.orderId now with
        | .error _ => processStuck env s now rest
        | .ok out => processStuck env out.store now rest) := rfl

/-- Category 1 leaves orders outside its candidate ids untouched. -/
theorem processExpired_frame (env : Env) (now : Int) :
    ∀ (cands : List Order) (s s2 : Store),
      processExpired env s now cands = .ok s2 →
      ∀ x ∈ s, (∀ c ∈ cands, c.orderId ≠ x.orderId) → x ∈ s2 := by
  intro cands
  induction cands with
  | nil => intro s s2 h x hx _; cases h; exact hx
  | cons c rest ih =>
    intro s s2 h x hx hne
    rw [processExpired_cons] at h
    cases hout : updateOrderStatus env s c.orderId .expired
        (some ⟨none, none, some "Quote expired without deposit"⟩) now with
    | error e => simp only [hout] at h; cases h
    | ok out =>
      simp only [hout] at h
      exact ih out.store s2 h x
        (updateOrderStatus_frame hout x hx (Ne.symm (hne c (List.mem_cons_self c rest))))
        (fun c2 hc2 => hne c2 (List.mem_cons_of_mem c hc2))

/-- Category 2 leaves orders outside its candidate ids untouched. -/
theorem processReminders_frame (env : Env) (now : Int) :
    ∀ (cands : List Order) (s s2 : Store),
      processReminders env s now cands = .ok s2 →
      ∀ x ∈ s, (∀ c ∈ cands, c.orderId ≠ x.orderId) → x ∈ s2 := by
  intro cands
  induction cands with
  | nil => intro s s2 h x hx _; cases h; exact hx
  | cons c rest ih =>
    intro s s2 h x hx hne
    rw [processReminders_cons] at h
    cases hsv : env.saveOk c.orderId with
    | false => simp only [hsv, Bool.false_eq_true, if_false] at h; cases h
    | true =>
      simp only [hsv, if_true] at h
      exact ih _ s2 h x
        (mem_storeSave_of_ne hx (Ne.symm (hne c (List.mem_cons_self c rest))))
        (fun c2 hc2 => hne c2 (List.mem_cons_of_mem c hc2))

/-- Category 3 leaves orders outside its candidate ids untouched. -/
theorem processAbandoned_frame (env : Env) (now : Int) :
    ∀ (cands : List Order) (s s2 : Store),
      processAbandoned env s now cands = .ok s2 →
      ∀ x ∈ s, (∀ c ∈ cands, c.orderId ≠ x.orderId) → x ∈ s2 := by
  intro cands
  induction cands with
  | nil => intro s s2 h x hx _; cases h; exact hx
  | cons c rest ih =>
    intro s s2 h x hx hne
    rw [processAbandoned_cons] at h
    cases hout : updateOrderStatus env s c.orderId .expired
        (some ⟨none, none, some "Abandoned - 24 hours without deposit"⟩) now with
    | error e => simp only [hout] at h; cases h
    | ok out =>
      simp only [hout] at h
      exact ih out.store s2 h x
        (updateOrderStatus_frame hout x hx (Ne.symm (hne c (List.mem_cons_self c rest))))
        (fun c2 hc2 => hne c2 (List.mem_cons_of_mem c hc2))

/-- A successful poll leaves every order with a different id
untouched. -/
theorem pollShiftStatus_frame {env : Env} {s : Store} {oid : String} {now : Int}
    {out : UpdateOutcome} (h : pollShiftStatus env s oid now = .ok out) :
    ∀ x ∈ s, x.orderId ≠ oid → x ∈ out.store := by
  intro x hx hne
  unfold pollShiftStatus at h
  cases hf : findByOrderId s oid with
  | none => rw [hf] at h; simp at h
  | some o =>
    rw [hf] at h
    simp only at h
    cases hsid : truthy o.shiftId with
    | false =>
      simp only [hsid, Bool.false_eq_true, if_false] at h
      cases h
    | true =>
      simp only [hsid, if_true] at h
      cases hapi : getShiftStatus env (o.shiftId.getD "") with
      | error e =>
        simp only [hapi] at h
        cases h
      | ok st =>
        simp only [hapi] at h
        exact updateOrderStatus_frame h x hx hne

/-- Category 4 leaves orders outside its candidate ids untouched. -/
theorem processStuck_frame (env : Env) (now : Int) :
    ∀ (cands : List Order) (s : Store),
      ∀ x ∈ s, (∀ c ∈ cands, c.orderId ≠ x.orderId) →
      x ∈ processStuck env s now cands := by
  intro cands
  induction cands with
  | nil => intro s x hx _; exact hx
  | cons c rest ih =>
    intro s x hx hne
    rw [processStuck_cons]
    cases hsid : truthy c.shiftId with
    | false =>
      simp only [hsid, Bool.not_false, if_true]
      exact ih s x hx (fun c2 hc2 => hne c2 (List.mem_cons_of_mem c hc2))
    | true =>
      simp only [hsid, Bool.not_true, Bool.false_eq_true, if_false]
      cases hpoll : pollShiftStatus env s c.orderId now with
      | error e =>
        exact ih s x hx (fun c2 hc2 => hne c2 (List.mem_cons_of_mem c hc2))
      | ok out =>
        exact ih out.store x
          (pollShiftStatus_frame hpoll x hx (Ne.symm (hne c (List.mem_cons_self c rest))))
          (fun c2 hc2 => hne c2 (List.mem_cons_of_mem c hc2))

/-- Category 1 expires a pending candidate: the updated snapshot,
with the distinct note, is in the resulting store. -/
theorem processExpired_hit (env : Env) (now : Int)
    (hsave : ∀ i, env.saveOk i = true) :
    ∀ (cands : List Order) (s s2 : Store) (o : Order),
      (s.map Order.orderId).Nodup →
      (cands.map Order.orderId).Nodup →
      o ∈ s → o ∈ cands →
      terminalGuard o.status = false →
      processExpired env s now cands = .ok s2 →
      { o with
        status := .expired
        statusHistory := o.statusHistory ++
          [⟨.expired, now, some "Quote expired without deposit"⟩]
        updatedAt := now } ∈ s2 := by
  intro cands
  induction cands with
  | nil => intro s s2 o _ _ _ hoc; cases hoc
  | cons c rest ih =>
    intro s s2 o hnds hndc hos hoc hg h
    rw [processExpired_cons] at h
    rcases List.mem_cons.mp hoc with hco | hoc2
    case inl =>
      rw [← hco] at h hndc
      have hfind : findByOrderId s o.orderId = some o :=
        findByOrderId_eq_of_mem_nodup hnds hos
      simp only [updateOrderStatus_eq_apply hfind hg (hsave o.orderId)] at h
      have happ : applyTransition o .expired
          (some ⟨none, none, some "Quote expired without deposit"⟩) now =
          { o with
            status := .expired
            statusHistory := o.statusHistory ++
              [⟨.expired, now, some "Quote expired without deposit"⟩]
            updatedAt := now } := rfl
      rw [happ] at h
      have hexp : ({ o with
          status := .expired
          statusHistory := o.statusHistory ++
            [⟨.expired, now, some "Quote expired without deposit"⟩]
          updatedAt := now } : Order) ∈
          storeSave s { o with
            status := .expired
            statusHistory := o.statusHistory ++
              [⟨.expired, now, some "Quote expired without deposit"⟩]
            updatedAt := now } :=
        mem_storeSave_self hos _ rfl
      refine processExpired_frame env now rest _ s2 h _ hexp ?_
      intro c2 hc2 heq
      rw [List.map_cons, List.nodup_cons] at hndc
      exact hndc.1 (heq ▸ List.mem_map_of_mem Order.orderId hc2)
    case inr =>
      have hne : c.orderId ≠ o.orderId := by
        rw [List.map_cons, List.nodup_cons] at hndc
        intro heq
        exact hndc.1 (heq ▸ List.mem_map_of_mem Order.orderId hoc2)
      cases hout : updateOrderStatus env s c.orderId .expired
          (some ⟨none, none, some "Quote expired without deposit"⟩) now with
      | error e => simp only [hout] at h; cases h
      | ok out =>
        simp only [hout] at h
        have hids := updateOrderStatus_ids hout
        refine ih out.store s2 o ?_ ?_ ?_ hoc2 hg h
        · rw [hids]; exact hnds
        · rw [List.map_cons, List.nodup_cons] at hndc; exact hndc.2
        · exact updateOrderStatus_frame hout o hos (Ne.symm hne)

/-! ## Claim C9: expired-without-deposit sweep rule -/

/-- Claim C9 counterexample: the note recorded by the sweep is
"Quote expired without deposit" with a capital Q, not the note
"quote expired without deposit" stated by the claim. -/
theorem C9_counterexample :
    (monitorPayments envAllOk [ordExpiredQuote] 10).toOption.map
      (fun p => p.2.map (fun o => (o.status, o.statusHistory.map HistoryEntry.note))) =
      some [(.expired, [some "Payment created, waiting for deposit",
                        some "Quote expired without deposit"])] ∧
    "Quote expired without deposit" ≠ "quote expired without deposit" := by
  decide

/-- Claim C9 (amended): an order that is pending with its quote
expiry strictly in the past and no observed deposit hash is selected
by the first sweep rule — the selection predicate holds exactly for
orders meeting all three conditions — and one sweep run (with a
cooperating storage layer, over a store with distinct ids)
transitions it to expired, appending one history entry with the note
"Quote expired without deposit". -/
theorem C9_expired_sweep (env : Env) (store : Store) (now : Int) (order : Order)
    (hsave : ∀ i, env.saveOk i = true)
    (hnd : (store.map Order.orderId).Nodup)
    (hmem : order ∈ store)
    (hp : order.status = .pending)
    (ht : ∃ te, order.quoteExpiresAt = some te ∧ te < now)
    (hd : order.depositTxHash = none) :
    (∀ o2 : Order, isExpiredPending now o2 = true ↔
      (o2.status = .pending ∧ (∃ te, o2.quoteExpiresAt = some te ∧ te < now) ∧
        o2.depositTxHash = none)) ∧
    (∃ summary s4, monitorPayments env store now = .ok (summary, s4) ∧
      { order with
        status := .expired
        statusHistory := order.statusHistory ++
          [⟨.expired, now, some "Quote expired without deposit"⟩]
        updatedAt := now } ∈ s4) := by
  constructor
  · intro o2
    unfold isExpiredPending
    cases hq : o2.quoteExpiresAt with
    | none => simp [hq]
    | some te => simp [hq, and_assoc]
  · obtain ⟨s1, h1, hi1⟩ := processExpired_ok env now hsave
      (store.filter (isExpiredPending now)) store
      (fun c hc => ⟨c, List.mem_of_mem_filter hc, rfl⟩)
    obtain ⟨s2, h2, hi2⟩ := processReminders_ok env now hsave
      (s1.filter (isExpiringSoon now)) s1
    obtain ⟨s3, h3, hi3⟩ := processAbandoned_ok env now hsave
      (s2.filter (isAbandoned now)) s2
      (fun c hc => ⟨c, List.mem_of_mem_filter hc, rfl⟩)
    have hsel : isExpiredPending now order = true := by
      obtain ⟨te, hte, hlt⟩ := ht
      simp [isExpiredPending, hp, hte, hd, hlt]
    have hoc : order ∈ store.filter (isExpiredPending now) :=
      List.mem_filter.mpr ⟨hmem, hsel⟩
    have hndc : ((store.filter (isExpiredPending now)).map Order.orderId).Nodup :=
      hnd.sublist (List.Sublist.map Order.orderId (List.filter_sublist store))
    have hg : terminalGuard order.status = false := by rw [hp]; rfl
    have hhit := processExpired_hit env now hsave
      (store.filter (isExpiredPending now)) store s1 order hnd hndc hmem hoc hg h1
    set q : Order := { order with
      status := .expired
      statusHistory := order.statusHistory ++
        [⟨.expired, now, some "Quote expired without deposit"⟩]
      updatedAt := now } with hqdef
    have hnds1 : (s1.map Order.orderId).Nodup := by rw [hi1]; exact hnd
    have hnds2 : (s2.map Order.orderId).Nodup := by rw [hi2]; exact hnds1
    have hqs : q.status = .expired := by rw [hqdef]
    have havoid2 : ∀ c ∈ s1.filter (isExpiringSoon now), c.orderId ≠ q.orderId := by
      intro c hc heq
      have hc1 := List.mem_filter.mp hc
      have hcq : c = q := mem_eq_of_ids_nodup hnds1 hc1.1 hhit heq
      have hfalse := hc1.2
      rw [hcq] at hfalse
      unfold isExpiringSoon at hfalse
      rw [hqs] at hfalse
      simp at hfalse
    have hq2 : q ∈ s2 := processReminders_frame env now
      (s1.filter (isExpiringSoon now)) s1 s2 h2 q hhit havoid2
    have havoid3 : ∀ c ∈ s2.filter (isAbandoned now), c.orderId ≠ q.orderId := by
      intro c hc heq
      have hc1 := List.mem_filter.mp hc
      have hcq : c = q := mem_eq_of_ids_nodup hnds2 hc1.1 hq2 heq
      have hfalse := hc1.2
      rw [hcq] at hfalse
      unfold isAbandoned at hfalse
      rw [hqs] at hfalse
      simp at hfalse
    have hq3 : q ∈ s3 := processAbandoned_frame env now
      (s2.filter (isAbandoned now)) s2 s3 h3 q hq2 havoid3
    have hnds3 : (s3.map Order.orderId).Nodup := by rw [hi3]; exact hnds2
    have havoid4 : ∀ c ∈ s3.filter (isStuck now), c.orderId ≠ q.orderId := by
      intro c hc heq
      have hc1 := List.mem_filter.mp hc
      have hcq : c = q := mem_eq_of_ids_nodup hnds3 hc1.1 hq3 heq
      have hfalse := hc1.2
      rw [hcq] at hfalse
      unfold isStuck at hfalse
      rw [hqs] at hfalse
      simp at hfalse
    have hq4 : q ∈ processStuck env s3 now (s3.filter (isStuck now)) :=
      processStuck_frame env now (s3.filter (isStuck now)) s3 q hq3 havoid4
    exact ⟨⟨(store.filter (isExpiredPending now)).length,
            (s1.filter (isExpiringSoon now)).length,
            (s2.filter (isAbandoned now)).length,
            (s3.filter (isStuck now)).length⟩,
           processStuck env s3 now (s3.filter (isStuck now)),
           by unfold monitorPayments; simp only [h1, h2, h3], hq4⟩

/-- Claim C9 witness: a one-order store whose quote expired at 5 is
swept at 10. -/
theorem C9_witness :
    (∀ o2 : Order, isExpiredPending 10 o2 = true ↔
      (o2.status = .pending ∧ (∃ te, o2.quoteExpiresAt = some te ∧ te < 10) ∧
        o2.depositTxHash = none)) ∧
    (∃ summary s4, monitorPayments envAllOk [ordExpiredQuote] 10 = .ok (summary, s4) ∧
      { ordExpiredQuote with
        status := .expired
        statusHistory := ordExpiredQuote.statusHistory ++
          [⟨.expired, 10, some "Quote expired without deposit"⟩]
        updatedAt := 10 } ∈ s4) :=
  C9_expired_sweep envAllOk [ordExpiredQuote] 10 ordExpiredQuote (fun _ => rfl)
    (by decide) (by decide) rfl ⟨5, rfl, by decide⟩ rfl

end CrossChainPayment
